import Mathlib

/-!
# Verification of the colab-nlp-templates corpus pipeline

A shallow embedding of the resumable batch-tokenization pipeline of
`src/libs/corpus_pass1.py` and of the token filtering / tokenizer adapters of
`src/libs/preprocess.py`, together with theorems settling the frozen claims
about them.

Modelling conventions:

* A pandas manifest `DataFrame` becomes a `List ManifestRow`; `df.at`
  mutation becomes functional row replacement.  Iteration order of
  `df.iterrows()` is the list order.
* The filesystem under `root_dir` becomes an association list
  `List (String × String)` from the path relative to `root_dir` to the file
  text; `Path.exists` is `lookup` succeeding, `Path.read_text` (with
  `errors="replace"`, which never raises) returns the stored text.
* `time.time()` becomes an explicit `now : Nat` parameter, constant during a
  run.
* Python exceptions that the code catches become `Except` values: the
  injected tokenize function has type `String → Except PyExc (List String)`
  (the `TokenizeTextFunc` contract of corpus_pass1 — one text in, the token
  words out; for such a list of plain strings the raw-token absorption of
  corpus_pass1.py lines 254–262 is the identity).  `f"{type(e).__name__}: {e}"`
  becomes `e.name ++ ": " ++ e.msg`.
* `json.dumps` serialisation of one jsonl line is kept structured as a
  `TokensLine` record; appending a line appends to a `List TokensLine`.
* Each `df.to_csv(manifest_csv)` overwrites the persisted manifest; the model
  records the successive persisted snapshots in a list `saves`, whose last
  element is the state the CSV holds when the run returns.
* Python string primitives used by the code (`strip`, slicing, `replace`,
  `lower`, `upper`, `split`, comparison for `sorted`) are modelled
  character-wise over `String.data`, because the Lean core versions do not
  reduce inside the kernel.  Only the ASCII case matters for the inputs the
  code passes (`"A"/"B"/"C"`, the word_form keywords).
-/

namespace ColabNLP

/-! ## Python string primitives, modelled over `List Char` -/

/-- Python `str.strip()`: drop whitespace from both ends. -/
def pyStrip (s : String) : String :=
  String.mk (((s.data.dropWhile Char.isWhitespace).reverse.dropWhile Char.isWhitespace).reverse)

/-- `text.replace("\n", "\\n")` for the single-character pattern `"\n"`. -/
def escapeNewlines : List Char → List Char
  | [] => []
  | c :: cs => if c = '\n' then '\\' :: 'n' :: escapeNewlines cs else c :: escapeNewlines cs

/-- `text[:n].replace("\n", "\\n")` — the preview field of a done row. -/
def pyPreview (text : String) (n : Nat) : String :=
  String.mk (escapeNewlines (text.data.take n))

/-- Python `s.split(sep)` for a one-character separator. -/
def splitOnChar (sep : Char) : List Char → List (List Char)
  | [] => [[]]
  | c :: cs =>
    match splitOnChar sep cs with
    | [] => [[]]
    | h :: t => if c = sep then [] :: h :: t else (c :: h) :: t

/-- Python `str.upper()` restricted to ASCII. -/
def pyUpperChar (c : Char) : Char :=
  if 'a' ≤ c ∧ c ≤ 'z' then Char.ofNat (c.toNat - 32) else c

/-- Python `str.lower()` restricted to ASCII. -/
def pyLowerChar (c : Char) : Char :=
  if 'A' ≤ c ∧ c ≤ 'Z' then Char.ofNat (c.toNat + 32) else c

def pyUpper (s : String) : String := String.mk (s.data.map pyUpperChar)

def pyLower (s : String) : String := String.mk (s.data.map pyLowerChar)

/-- Python's `<=` on strings: code-point lexicographic order (a strict prefix
sorts first).  CPython `PurePath.__lt__` compares the path string this way on
POSIX, which is the order `sorted(root_dir.rglob(...))` uses. -/
def leChars : List Char → List Char → Bool
  | [], _ => true
  | _ :: _, [] => false
  | a :: as, b :: bs => if a = b then leChars as bs else decide (a.toNat < b.toNat)

def strLe (a b : String) : Bool := leChars a.data b.data

/-- `strLe` as a decidable relation for `List.insertionSort`. -/
def strLeRel (a b : String) : Prop := strLe a b = true

instance : DecidableRel strLeRel := fun a b =>
  (inferInstance : Decidable (strLe a b = true))

/-- `pathlib.Path.name`: the final path component. -/
def pyName (p : String) : String :=
  String.mk ((splitOnChar '/' p.data).getLastD [])

/-- Index of the last `'.'` in a character list, if any. -/
def rfindDot (cs : List Char) : Option Nat :=
  (List.findIdx? (fun c => c = '.') cs.reverse).map (fun j => cs.length - 1 - j)

/-- `pathlib.Path.suffix`: the extension of the final component, empty unless
the last dot is at an index `i` with `0 < i < len(name) - 1`. -/
def pySuffix (p : String) : String :=
  let name := (pyName p).data
  match rfindDot name with
  | none => ""
  | some i => if 0 < i ∧ i + 1 < name.length then String.mk (name.drop i) else ""

/-! ## Data model (corpus_pass1.py) -/

/-- One manifest row, the record `build_file_manifest` appends per file
(corpus_pass1.py lines 64–77).  `n_chars`/`n_tokens` are `pd.NA` until
success, modelled by `Option Nat`. -/
structure ManifestRow where
  doc_id : Nat
  path : String
  filename : String
  ext : String
  status : String
  error : String
  n_chars : Option Nat
  n_tokens : Option Nat
  preview : String
  updated_at : Nat
deriving DecidableEq, Repr

/-- A caught Python exception: its type name and its message. -/
structure PyExc where
  name : String
  msg : String
deriving DecidableEq, Repr

/-- One line of tokens.jsonl: `{"doc_id": ..., "path": ..., "tokens": [...]}`. -/
structure TokensLine where
  doc_id : Nat
  path : String
  tokens : List String
deriving DecidableEq, Repr

instance {ε α : Type} [DecidableEq ε] [DecidableEq α] : DecidableEq (Except ε α) :=
  fun x y =>
  match x, y with
  | .ok a, .ok b =>
    if h : a = b then isTrue (by rw [h]) else isFalse (by intro hh; cases hh; exact h rfl)
  | .error a, .error b =>
    if h : a = b then isTrue (by rw [h]) else isFalse (by intro hh; cases hh; exact h rfl)
  | .ok _, .error _ => isFalse (by intro hh; cases hh)
  | .error _, .ok _ => isFalse (by intro hh; cases hh)

/-! ## build_file_manifest -/

/-- The record-building loop of `build_file_manifest` (lines 59–77): the
counter `doc_id` starts at 0 and is incremented before each record, so ids
are `1..N` in file order. -/
def manifestRecords (now : Nat) : Nat → List String → List ManifestRow
  | _, [] => []
  | doc_id, p :: rest =>
    { doc_id := doc_id + 1,
      path := p,
      filename := pyName p,
      ext := pySuffix p,
      status := "pending",
      error := "",
      n_chars := none,
      n_tokens := none,
      preview := "",
      updated_at := now } :: manifestRecords now (doc_id + 1) rest

/-- `build_file_manifest(root_dir, ext=ext)` over a directory snapshot: the
snapshot is the list of relative paths `root_dir.rglob` yields, in whatever
order the filesystem reports them.  The existence / is-a-directory checks on
`root_dir` are environment preconditions outside the model.  The glob
`*{ext}` keeps exactly the paths ending in the (dot-prefixed) extension, and
`sorted(...)` linearly orders them by the path string. -/
def build_file_manifest (snapshot : List String) (ext : String) (now : Nat) :
    List ManifestRow :=
  let extChars := if ['.'].isPrefixOf ext.data then ext.data else '.' :: ext.data
  let files :=
    List.insertionSort strLeRel (snapshot.filter (fun p => List.isSuffixOf extChars p.data))
  manifestRecords now 0 files

/-! ## process_manifest_to_jsonl -/

/-- `append_tokens_jsonl` (lines 112–123): one document appended as one line. -/
def append_tokens_jsonl (jsonl : List TokensLine) (doc_id : Nat) (path : String)
    (tokens : List String) : List TokensLine :=
  jsonl ++ [{ doc_id := doc_id, path := path, tokens := tokens }]

/-- The body of the per-row work of `process_manifest_to_jsonl`
(lines 232–285), for one row already known to match `statuses_to_process`:
the not-found branch, the try-block success path (read, tokenize, append,
update to done) and the except path (update to failed).  Returns the updated
row and the jsonl line appended for it, if any. -/
def processRowResult (fs : List (String × String))
    (tok : String → Except PyExc (List String))
    (preview_chars : Nat) (now : Nat) (row : ManifestRow) :
    ManifestRow × Option TokensLine :=
  match fs.lookup row.path with
  | none =>
    ({ row with
        status := "failed",
        error := "file not found: " ++ row.path,
        updated_at := now }, none)
  | some text =>
    match tok text with
    | .error e =>
      ({ row with
          status := "failed",
          error := e.name ++ ": " ++ e.msg,
          updated_at := now }, none)
    | .ok tokens =>
      ({ row with
          status := "done",
          error := "",
          n_chars := some text.data.length,
          n_tokens := some tokens.length,
          preview := pyPreview text preview_chars,
          updated_at := now },
       some { doc_id := row.doc_id, path := row.path, tokens := tokens })

/-- The in-flight state of a run: `pre` the rows already iterated (updated in
place in the source), `out` the lines appended to tokens.jsonl this run,
`saves` the successive `df.to_csv` snapshots, `processed` the counter. -/
structure RunState where
  pre : List ManifestRow
  out : List TokensLine
  saves : List (List ManifestRow)
  processed : Nat
deriving Repr

/-- One iteration of the `for i, row in df.iterrows()` loop (lines 227–289):
skip the row unless its status is in `statuses_to_process`; otherwise process
it, bump `processed`, and persist the whole manifest when
`processed % save_every == 0`.  `rest` is the not-yet-iterated tail, needed
because `df.to_csv` writes the whole frame. -/
def stepRow (fs : List (String × String)) (tok : String → Except PyExc (List String))
    (statuses : List String) (preview_chars save_every now : Nat)
    (st : RunState) (row : ManifestRow) (rest : List ManifestRow) : RunState :=
  if row.status ∈ statuses then
    let pr := processRowResult fs tok preview_chars now row
    let out' := match pr.2 with
      | none => st.out
      | some line => append_tokens_jsonl st.out line.doc_id line.path line.tokens
    let processed' := st.processed + 1
    let saves' :=
      if processed' % save_every = 0 then st.saves ++ [st.pre ++ pr.1 :: rest]
      else st.saves
    { pre := st.pre ++ [pr.1], out := out', saves := saves', processed := processed' }
  else
    { pre := st.pre ++ [row], out := st.out, saves := st.saves,
      processed := st.processed }

/-- The whole row loop. -/
def runRows (fs : List (String × String)) (tok : String → Except PyExc (List String))
    (statuses : List String) (preview_chars save_every now : Nat) :
    RunState → List ManifestRow → RunState
  | st, [] => st
  | st, row :: rest =>
    runRows fs tok statuses preview_chars save_every now
      (stepRow fs tok statuses preview_chars save_every now st row rest) rest

/-- What one run returns and leaves behind: the updated manifest (also the
function's return value), the lines appended to tokens.jsonl, every persisted
manifest snapshot in order (the last one is what the CSV holds afterwards —
line 292 saves once more unconditionally), and the `processed` counter. -/
structure RunResult where
  df : List ManifestRow
  out : List TokensLine
  saves : List (List ManifestRow)
  processed : Nat
deriving Repr

/-- `process_manifest_to_jsonl` (lines 129–293) over an already-loaded
manifest `df0` (`load_or_create_manifest` returns the previously persisted
frame, so a re-run starts from the previous run's final save, which equals
its returned `df`). -/
def process_manifest_to_jsonl (fs : List (String × String))
    (tok : String → Except PyExc (List String)) (statuses : List String)
    (preview_chars save_every now : Nat) (df0 : List ManifestRow) : RunResult :=
  let fin := runRows fs tok statuses preview_chars save_every now
    { pre := [], out := [], saves := [], processed := 0 } df0
  { df := fin.pre, out := fin.out, saves := fin.saves ++ [fin.pre],
    processed := fin.processed }

/-- The effect of one run on a single row: untouched when its status is not
in `statuses_to_process`, otherwise replaced by `processRowResult`'s row. -/
def rowAfter (fs : List (String × String)) (tok : String → Except PyExc (List String))
    (statuses : List String) (preview_chars now : Nat) (row : ManifestRow) :
    ManifestRow :=
  if row.status ∈ statuses then (processRowResult fs tok preview_chars now row).1
  else row

/-- The jsonl lines one row contributes in one run. -/
def rowOut (fs : List (String × String)) (tok : String → Except PyExc (List String))
    (statuses : List String) (preview_chars now : Nat) (row : ManifestRow) :
    List TokensLine :=
  if row.status ∈ statuses then
    match (processRowResult fs tok preview_chars now row).2 with
    | some line => [line]
    | none => []
  else []

/-! ## preprocess.py: stopword normalisation and POS filtering -/

/-- The values `_normalize_stopwords` accepts: `None`, a single `str`, a
`pandas.Series` (its index holds the words, as after `value_counts()`), a
`pandas.Index`, an arbitrarily nested iterable of such values, or a
non-iterable scalar (converted by `str`). -/
inductive Stopwords where
  | noneVal : Stopwords
  | strVal : String → Stopwords
  | series : List String → Stopwords
  | index : List String → Stopwords
  | iter : List Stopwords → Stopwords
  | scalar : String → Stopwords

mutual

/-- `_normalize_stopwords` (preprocess.py lines 47–90): build the exclusion
set.  The Python set is modelled as a `List String` read up to membership.
A `str` is added as one word, never iterated character-wise; iterables are
flattened recursively. -/
def _normalize_stopwords : Stopwords → List String
  | .noneVal => []
  | .strVal s => [s]
  | .series ix => ix
  | .index vals => vals
  | .iter items => normalizeStopwordsList items
  | .scalar s => [s]

/-- The `for sw in stopwords: result |= _normalize_stopwords(sw)` loop. -/
def normalizeStopwordsList : List Stopwords → List String
  | [] => []
  | x :: xs => _normalize_stopwords x ++ normalizeStopwordsList xs

end

/-- `_compile_pos_filter` (lines 21–44).  Python truthiness: an empty or
absent keep/exclude list normalises to `None`; with `strict` and both sets
present and disjoint, a `ValueError` is raised. -/
def _compile_pos_filter (pos_keep pos_exclude : Option (List String))
    (strict : Bool) : Except String (Option (List String) × Option (List String)) :=
  let keep_set : Option (List String) := match pos_keep with
    | none => none
    | some l => if l.isEmpty then none else some l
  let excl_set : Option (List String) := match pos_exclude with
    | none => none
    | some l => if l.isEmpty then none else some l
  if strict && keep_set.isSome && excl_set.isSome &&
      (keep_set.getD []).all (fun x => !((excl_set.getD []).contains x)) then
    .error "pos_keep と pos_exclude が同時指定されていますが、両者に交差がありません。指定ミスの可能性があります。"
  else
    .ok (keep_set, excl_set)

/-- One row of a tokenize output frame: document id, word, coarse POS.  The
frames `filter_tokens_df` receives always carry the `pos` and `word`
columns, so the KeyError branches for missing columns are outside the
model. -/
structure TokenRow where
  article_id : Nat
  word : String
  pos : String
deriving DecidableEq, Repr

/-- `filter_tokens_df` (lines 97–156): keep-POS filter, then exclude-POS
filter, then stopword exclusion on the `word` column (skipped when the
surviving frame is empty or the normalised set is empty).
`keep_original_index` only renumbers the pandas index and has no counterpart
on lists. -/
def filter_tokens_df (df : List TokenRow) (pos_keep pos_exclude : Option (List String))
    (stopwords : Option Stopwords) (strict : Bool) : Except String (List TokenRow) :=
  match _compile_pos_filter pos_keep pos_exclude strict with
  | .error e => .error e
  | .ok (keep_set, excl_set) =>
    let s1 := match keep_set with
      | none => df
      | some ks => df.filter (fun r => ks.contains r.pos)
    let s2 := match excl_set with
      | none => s1
      | some es => s1.filter (fun r => !(es.contains r.pos))
    let s3 := match stopwords with
      | none => s2
      | some sw =>
        if s2.isEmpty then s2
        else
          let sw_set := _normalize_stopwords sw
          if sw_set.isEmpty then s2
          else s2.filter (fun r => !(sw_set.contains r.word))
    .ok s3

/-! ## preprocess.py: tokenizer adapters -/

/-- What a Janome token object exposes to `tokenize_text_janome`. -/
structure JanomeToken where
  surface : String
  base_form : String
  reading : String
  part_of_speech : String
deriving DecidableEq, Repr

/-- The optional `token_info` dict of the Janome adapter. -/
structure JanomeInfo where
  surface : String
  base_form : String
  reading : String
deriving DecidableEq, Repr

/-- `s.split(",")[0]`: the coarse POS prefix of Janome's `part_of_speech`. -/
def posHead (s : String) : String :=
  String.mk ((splitOnChar ',' s.data).headD [])

/-- `tokenize_text_janome` (lines 163–201).  The analyzer is the injected
`tokenizer` function; `None` or whitespace-only input returns `[]` before it
is consulted. -/
def tokenize_text_janome (text : Option String)
    (tokenizer : String → List JanomeToken)
    (use_base_form : Bool := true) (extra_col : Option String := some "token_info") :
    List (String × String × Option JanomeInfo) :=
  match text with
  | none => []
  | some t =>
    let s := pyStrip t
    if s = "" then []
    else
      (tokenizer s).map (fun token =>
        let word := if use_base_form then token.base_form else token.surface
        let pos := posHead token.part_of_speech
        let token_info : Option JanomeInfo := match extra_col with
          | none => none
          | some _ =>
            some { surface := token.surface,
                   base_form := token.base_form,
                   reading := token.reading }
        (word, pos, token_info))

/-- Sudachi's split granularity. -/
inductive SplitMode where
  | A : SplitMode
  | B : SplitMode
  | C : SplitMode
deriving DecidableEq, Repr

/-- What a Sudachi morpheme object exposes to `tokenize_text_sudachi`.  A
real morpheme's `part_of_speech()` tuple always has six entries; the model
keeps it a list and reads its head with default `""`. -/
structure SudachiMorpheme where
  surface : String
  dictionary_form : String
  normalized_form : String
  part_of_speech : List String
deriving DecidableEq, Repr

/-- The optional `token_info` dict of the Sudachi adapter. -/
structure SudachiInfo where
  surface : String
  dictionary_form : String
  normalized_form : String
deriving DecidableEq, Repr

/-- `mode_map.get(str(split_mode).upper(), SplitMode.C)` (lines 255–260). -/
def sudachiMode (split_mode : String) : SplitMode :=
  let u := pyUpper split_mode
  if u = "A" then .A else if u = "B" then .B else if u = "C" then .C else .C

/-- The `word` selection inside the loop (lines 264–278): `word_form=None`
falls back to `use_base_form`; otherwise the lower-cased keyword picks the
form, and an unknown keyword raises `ValueError`. -/
def sudachiWordForm (word_form : Option String) (use_base_form : Bool)
    (m : SudachiMorpheme) : Except String String :=
  match word_form with
  | none => .ok (if use_base_form then m.dictionary_form else m.surface)
  | some wf0 =>
    let wf := pyLower wf0
    if wf ∈ (["dictionary", "dict", "base", "lemma"] : List String) then
      .ok m.dictionary_form
    else if wf ∈ (["surface", "orig", "original"] : List String) then
      .ok m.surface
    else if wf ∈ (["normalized", "normal", "norm"] : List String) then
      .ok m.normalized_form
    else
      .error ("tokenize_text_sudachi: invalid word_form=" ++ wf0 ++
        ". Use dictionary/surface/normalized (or omit).")

/-- One record of the Sudachi loop body (lines 263–290). -/
def sudachiRecord (word_form : Option String) (use_base_form : Bool)
    (extra_col : Option String) (m : SudachiMorpheme) :
    Except String (String × String × Option SudachiInfo) :=
  match sudachiWordForm word_form use_base_form m with
  | .error e => .error e
  | .ok word =>
    let pos := m.part_of_speech.headD ""
    let token_info : Option SudachiInfo := match extra_col with
      | none => none
      | some _ =>
        some { surface := m.surface,
               dictionary_form := m.dictionary_form,
               normalized_form := m.normalized_form }
    .ok (word, pos, token_info)

/-- The `for m in tokenizer.tokenize(s, mode)` loop: records are accumulated
in order and the first `ValueError` aborts the whole call. -/
def sudachiRecords (word_form : Option String) (use_base_form : Bool)
    (extra_col : Option String) :
    List SudachiMorpheme → Except String (List (String × String × Option SudachiInfo))
  | [] => .ok []
  | m :: ms =>
    match sudachiRecord word_form use_base_form extra_col m with
    | .error e => .error e
    | .ok r =>
      match sudachiRecords word_form use_base_form extra_col ms with
      | .error e => .error e
      | .ok rs => .ok (r :: rs)

/-- `tokenize_text_sudachi` (lines 208–292).  The analyzer is the injected
`tokenizer` function; `None` or whitespace-only input returns `[]` before
the SudachiPy import, the mode lookup and the analyzer are touched. -/
def tokenize_text_sudachi (text : Option String)
    (tokenizer : String → SplitMode → List SudachiMorpheme)
    (split_mode : String := "C") (word_form : Option String := none)
    (use_base_form : Bool := true) (extra_col : Option String := some "token_info") :
    Except String (List (String × String × Option SudachiInfo)) :=
  match text with
  | none => .ok []
  | some t =>
    let s := pyStrip t
    if s = "" then .ok []
    else
      let mode := sudachiMode split_mode
      sudachiRecords word_form use_base_form extra_col (tokenizer s mode)

/-! ## Shape of a run: the manifest transformation is a per-row map -/

section RunShape

variable (fs : List (String × String)) (tok : String → Except PyExc (List String))
  (statuses : List String) (preview_chars save_every now : Nat)

lemma stepRow_pre (st : RunState) (row : ManifestRow) (rest : List ManifestRow) :
    (stepRow fs tok statuses preview_chars save_every now st row rest).pre =
      st.pre ++ [rowAfter fs tok statuses preview_chars now row] := by
  simp only [stepRow, rowAfter]
  split <;> rfl

lemma stepRow_out (st : RunState) (row : ManifestRow) (rest : List ManifestRow) :
    (stepRow fs tok statuses preview_chars save_every now st row rest).out =
      st.out ++ rowOut fs tok statuses preview_chars now row := by
  simp only [stepRow, rowOut, append_tokens_jsonl]
  split
  · cases hr : (processRowResult fs tok preview_chars now row).2 <;> simp [hr]
  · simp

lemma stepRow_processed (st : RunState) (row : ManifestRow) (rest : List ManifestRow) :
    (stepRow fs tok statuses preview_chars save_every now st row rest).processed =
      st.processed + (if row.status ∈ statuses then 1 else 0) := by
  simp only [stepRow]
  split <;> simp_all

lemma stepRow_saves_length (st : RunState) (row : ManifestRow) (rest : List ManifestRow) :
    (stepRow fs tok statuses preview_chars save_every now st row rest).saves.length =
      st.saves.length +
        (if row.status ∈ statuses then
          (if (st.processed + 1) % save_every = 0 then 1 else 0) else 0) := by
  simp only [stepRow]
  split
  · split <;> (split <;> simp_all)
  · simp_all

lemma runRows_pre (rows : List ManifestRow) : ∀ st : RunState,
    (runRows fs tok statuses preview_chars save_every now st rows).pre =
      st.pre ++ rows.map (rowAfter fs tok statuses preview_chars now) := by
  induction rows with
  | nil => intro st; simp [runRows]
  | cons row rest ih =>
    intro st
    simp only [runRows, List.map_cons]
    rw [ih, stepRow_pre]
    simp

lemma runRows_out (rows : List ManifestRow) : ∀ st : RunState,
    (runRows fs tok statuses preview_chars save_every now st rows).out =
      st.out ++ rows.flatMap (rowOut fs tok statuses preview_chars now) := by
  induction rows with
  | nil => intro st; simp [runRows]
  | cons row rest ih =>
    intro st
    simp only [runRows, List.flatMap_cons]
    rw [ih, stepRow_out]
    simp

lemma runRows_processed (rows : List ManifestRow) : ∀ st : RunState,
    (runRows fs tok statuses preview_chars save_every now st rows).processed =
      st.processed + rows.countP (fun r => decide (r.status ∈ statuses)) := by
  induction rows with
  | nil => intro st; simp [runRows]
  | cons row rest ih =>
    intro st
    simp only [runRows, List.countP_cons]
    rw [ih, stepRow_processed]
    by_cases h : row.status ∈ statuses <;> simp [h] <;> omega

/-- The returned manifest is `rowAfter` mapped over the input manifest: each
row's final value depends only on that row (and on the filesystem and the
tokenize function), not on any other row. -/
lemma process_df (df0 : List ManifestRow) :
    (process_manifest_to_jsonl fs tok statuses preview_chars save_every now df0).df =
      df0.map (rowAfter fs tok statuses preview_chars now) := by
  simp only [process_manifest_to_jsonl]
  rw [runRows_pre]
  simp

/-- The lines appended to tokens.jsonl are the concatenation of each row's
own contribution, in manifest order. -/
lemma process_out (df0 : List ManifestRow) :
    (process_manifest_to_jsonl fs tok statuses preview_chars save_every now df0).out =
      df0.flatMap (rowOut fs tok statuses preview_chars now) := by
  simp only [process_manifest_to_jsonl]
  rw [runRows_out]
  simp

/-- `processed` counts exactly the rows whose status was selected, successes
and failures alike. -/
lemma process_processed (df0 : List ManifestRow) :
    (process_manifest_to_jsonl fs tok statuses preview_chars save_every now df0).processed =
      df0.countP (fun r => decide (r.status ∈ statuses)) := by
  simp only [process_manifest_to_jsonl]
  rw [runRows_processed]
  simp

lemma succ_div_mod (save_every p : Nat) :
    (p + 1) / save_every =
      p / save_every + (if (p + 1) % save_every = 0 then 1 else 0) := by
  rw [Nat.succ_div]
  congr 1
  simp only [Nat.dvd_iff_mod_eq_zero]

lemma runRows_saves_length (rows : List ManifestRow) : ∀ st : RunState,
    (runRows fs tok statuses preview_chars save_every now st rows).saves.length +
        st.processed / save_every =
      st.saves.length +
        (st.processed + rows.countP (fun r => decide (r.status ∈ statuses))) /
          save_every := by
  induction rows with
  | nil => intro st; simp [runRows]
  | cons row rest ih =>
    intro st
    simp only [runRows, List.countP_cons]
    have ihx := ih (stepRow fs tok statuses preview_chars save_every now st row rest)
    rw [stepRow_saves_length, stepRow_processed] at ihx
    by_cases h : row.status ∈ statuses
    · simp only [h, if_true, decide_eq_true_eq, if_pos h] at ihx ⊢
      have harr : st.processed +
          (List.countP (fun r => decide (r.status ∈ statuses)) rest + 1) =
          st.processed + 1 +
            List.countP (fun r => decide (r.status ∈ statuses)) rest := by omega
      rw [harr]
      have hdiv := succ_div_mod save_every st.processed
      by_cases hm : (st.processed + 1) % save_every = 0 <;>
        simp only [hm, if_true, if_false, reduceIte] at ihx hdiv <;> omega
    · simp only [h, if_false, decide_eq_true_eq, if_neg h, reduceIte] at ihx ⊢
      simpa using ihx

end RunShape

/-! ## Stability of a completed run (claim C1 machinery) -/

/-- After one run processes a row, reprocessing its result with the same
sources appends nothing: the row either became `done` (skipped whenever
`"done"` is not in `statuses_to_process`), or became `failed` precisely
because its file is missing or its text makes the tokenize function raise —
both of which recur unchanged on the next run and append no line.  A row the
run skipped is skipped again. -/
lemma rowOut_rowAfter (fs : List (String × String))
    (tok : String → Except PyExc (List String)) (statuses : List String)
    (preview_chars n1 n2 : Nat) (row : ManifestRow)
    (hdone : "done" ∉ statuses) :
    rowOut fs tok statuses preview_chars n2
      (rowAfter fs tok statuses preview_chars n1 row) = [] := by
  unfold rowAfter
  by_cases h : row.status ∈ statuses
  · rw [if_pos h]
    cases hfs : fs.lookup row.path with
    | none =>
      simp only [processRowResult, hfs, rowOut]
      split
      · simp [processRowResult, hfs]
      · rfl
    | some text =>
      cases htok : tok text with
      | error e =>
        simp only [processRowResult, hfs, htok, rowOut]
        split
        · simp [processRowResult, hfs, htok]
        · rfl
      | ok tokens =>
        simp only [processRowResult, hfs, htok, rowOut]
        rw [if_neg (by simpa using hdone)]
  · rw [if_neg h]
    unfold rowOut
    rw [if_neg h]

/-! ## The path order is linear (claim C3 machinery) -/

lemma charToNat_inj {a b : Char} (h : a.toNat = b.toNat) : a = b := by
  apply Char.ext
  apply UInt32.ext
  exact h

lemma leChars_total (a : List Char) : ∀ b, leChars a b = true ∨ leChars b a = true := by
  induction a with
  | nil => intro b; left; rfl
  | cons x xs ih =>
    intro b
    cases b with
    | nil => right; rfl
    | cons y ys =>
      by_cases hxy : x = y
      · subst hxy
        simpa [leChars] using ih ys
      · have hne : x.toNat ≠ y.toNat := fun h => hxy (charToNat_inj h)
        simp only [leChars, if_neg hxy, if_neg (Ne.symm hxy), decide_eq_true_eq]
        omega

lemma leChars_trans (a : List Char) : ∀ b c, leChars a b = true → leChars b c = true →
    leChars a c = true := by
  induction a with
  | nil => intro b c _ _; rfl
  | cons x xs ih =>
    intro b c h1 h2
    cases b with
    | nil => simp [leChars] at h1
    | cons y ys =>
      cases c with
      | nil => simp [leChars] at h2
      | cons z zs =>
        simp only [leChars] at h1 h2 ⊢
        by_cases hxy : x = y
        · subst hxy
          by_cases hyz : x = z
          · subst hyz
            simp only [if_pos rfl] at h1 h2 ⊢
            exact ih ys zs (by simpa using h1) (by simpa using h2)
          · simp only [if_pos rfl] at h1
            simpa [hyz] using h2
        · by_cases hyz : y = z
          · subst hyz
            simpa [hxy] using h1
          · simp only [if_neg hxy, if_neg hyz, decide_eq_true_eq] at h1 h2
            have hxz : x.toNat ≠ z.toNat := by omega
            have : x ≠ z := fun h => hxz (by rw [h])
            simp only [if_neg this, decide_eq_true_eq]
            omega

lemma leChars_antisymm (a : List Char) : ∀ b, leChars a b = true → leChars b a = true →
    a = b := by
  induction a with
  | nil =>
    intro b _ h2
    cases b with
    | nil => rfl
    | cons y ys => simp [leChars] at h2
  | cons x xs ih =>
    intro b h1 h2
    cases b with
    | nil => simp [leChars] at h1
    | cons y ys =>
      by_cases hxy : x = y
      · subst hxy
        simp only [leChars, if_pos rfl] at h1 h2
        rw [ih ys h1 h2]
      · simp only [leChars, if_neg hxy, if_neg (Ne.symm hxy),
          decide_eq_true_eq] at h1 h2
        have : x.toNat ≠ y.toNat := fun h => hxy (charToNat_inj h)
        omega

instance : IsTotal String strLeRel :=
  ⟨fun a b => leChars_total a.data b.data⟩

instance : IsTrans String strLeRel :=
  ⟨fun a b c h1 h2 => leChars_trans a.data b.data c.data h1 h2⟩

instance : IsAntisymm String strLeRel :=
  ⟨fun a b h1 h2 => String.ext (leChars_antisymm a.data b.data h1 h2)⟩

/-! ## Shape of the freshly built manifest (claim C3 machinery) -/

lemma manifestRecords_pairs (now : Nat) (files : List String) : ∀ k : Nat,
    (manifestRecords now k files).map (fun r => (r.doc_id, r.path)) =
      (List.range' (k + 1) files.length).zip files := by
  induction files with
  | nil => intro k; simp [manifestRecords]
  | cons p rest ih =>
    intro k
    simp only [manifestRecords, List.map_cons, List.length_cons, List.range'_succ,
      List.zip_cons_cons]
    rw [ih (k + 1)]

lemma manifestRecords_paths (now : Nat) (files : List String) : ∀ k : Nat,
    (manifestRecords now k files).map (fun r => r.path) = files := by
  induction files with
  | nil => intro k; simp [manifestRecords]
  | cons p rest ih =>
    intro k
    simp only [manifestRecords, List.map_cons]
    rw [ih (k + 1)]

lemma manifestRecords_doc_ids (now : Nat) (files : List String) : ∀ k : Nat,
    (manifestRecords now k files).map (fun r => r.doc_id) =
      List.range' (k + 1) files.length := by
  induction files with
  | nil => intro k; simp [manifestRecords]
  | cons p rest ih =>
    intro k
    simp only [manifestRecords, List.map_cons, List.length_cons, List.range'_succ]
    rw [ih (k + 1)]

lemma manifestRecords_length (now : Nat) (files : List String) : ∀ k : Nat,
    (manifestRecords now k files).length = files.length := by
  induction files with
  | nil => intro k; simp [manifestRecords]
  | cons p rest ih =>
    intro k
    simp only [manifestRecords, List.length_cons]
    rw [ih (k + 1)]

/-- The sorted, filtered file list both runs of `build_file_manifest` see. -/
lemma build_files_eq (snap1 snap2 : List String) (ext : String)
    (hperm : snap1.Perm snap2) :
    List.insertionSort strLeRel
        (snap1.filter (fun p =>
          List.isSuffixOf
            (if ['.'].isPrefixOf ext.data then ext.data else '.' :: ext.data) p.data)) =
      List.insertionSort strLeRel
        (snap2.filter (fun p =>
          List.isSuffixOf
            (if ['.'].isPrefixOf ext.data then ext.data else '.' :: ext.data) p.data)) := by
  apply List.eq_of_perm_of_sorted (r := strLeRel)
  · exact ((List.perm_insertionSort strLeRel _).trans (hperm.filter _)).trans
      (List.perm_insertionSort strLeRel _).symm
  · exact List.sorted_insertionSort strLeRel _
  · exact List.sorted_insertionSort strLeRel _

/-! ## Claim theorems -/

/-- Claim C1: re-running `process_manifest_to_jsonl` with the same sources
and `statuses_to_process = ("pending", "failed")` is idempotent — the second
run appends no line to tokens.jsonl, and every row whose status is not in
`statuses_to_process` (in particular every `done` row) comes out of the
second run exactly as it went in. -/
theorem claim_C1_rerun_idempotent (fs : List (String × String))
    (tok : String → Except PyExc (List String))
    (preview_chars save_every n1 n2 : Nat) (df0 : List ManifestRow) :
    (process_manifest_to_jsonl fs tok ["pending", "failed"] preview_chars save_every n2
        (process_manifest_to_jsonl fs tok ["pending", "failed"] preview_chars save_every
          n1 df0).df).out = []
    ∧ ∀ (i : Nat) (row : ManifestRow),
        ((process_manifest_to_jsonl fs tok ["pending", "failed"] preview_chars save_every
            n1 df0).df)[i]? = some row →
          row.status ∉ (["pending", "failed"] : List String) →
          ((process_manifest_to_jsonl fs tok ["pending", "failed"] preview_chars
              save_every n2
              (process_manifest_to_jsonl fs tok ["pending", "failed"] preview_chars
                save_every n1 df0).df).df)[i]? = some row := by
  constructor
  · rw [process_out, process_df]
    apply List.flatMap_eq_nil_iff.mpr
    intro x hx
    obtain ⟨y, _, rfl⟩ := List.mem_map.mp hx
    exact rowOut_rowAfter fs tok _ preview_chars n1 n2 y (by decide)
  · intro i row h1 h2
    rw [process_df, List.getElem?_map, h1]
    simp [rowAfter, h2]

/-- Claim C2: a tokenizer exception on a selected row is swallowed at row
level — the row becomes `failed` with error `"<type>: <message>"` and
`updated_at = now`, while the batch still processes every other row (the run
is a total function whose result maps every row through its own
`rowAfter`). -/
theorem claim_C2_exception_swallowed (fs : List (String × String))
    (tok : String → Except PyExc (List String)) (statuses : List String)
    (preview_chars save_every now : Nat) (pre post : List ManifestRow)
    (row : ManifestRow) (text : String) (e : PyExc)
    (h1 : row.status ∈ statuses)
    (h2 : fs.lookup row.path = some text)
    (h3 : tok text = .error e) :
    (process_manifest_to_jsonl fs tok statuses preview_chars save_every now
        (pre ++ row :: post)).df =
      pre.map (rowAfter fs tok statuses preview_chars now) ++
        ({ row with
            status := "failed",
            error := e.name ++ ": " ++ e.msg,
            updated_at := now } ::
          post.map (rowAfter fs tok statuses preview_chars now)) := by
  rw [process_df, List.map_append, List.map_cons]
  have hrow : rowAfter fs tok statuses preview_chars now row =
      { row with
          status := "failed",
          error := e.name ++ ": " ++ e.msg,
          updated_at := now } := by
    simp [rowAfter, h1, processRowResult, h2, h3]
  rw [hrow]

/-- Concrete instance of claim C2: one pending row whose tokenize call
raises `ValueError: boom`. -/
theorem claim_C2_witness :
    (process_manifest_to_jsonl [("a.txt", "hello")]
        (fun _ => Except.error { name := "ValueError", msg := "boom" })
        ["pending", "failed"] 120 1 77
        ([] ++ ({ doc_id := 1, path := "a.txt", filename := "a.txt", ext := ".txt",
                  status := "pending", error := "", n_chars := none, n_tokens := none,
                  preview := "", updated_at := 5 } : ManifestRow) :: [])).df =
      [].map (rowAfter [("a.txt", "hello")]
        (fun _ => Except.error { name := "ValueError", msg := "boom" })
        ["pending", "failed"] 120 77) ++
        ({ ({ doc_id := 1, path := "a.txt", filename := "a.txt", ext := ".txt",
              status := "pending", error := "", n_chars := none, n_tokens := none,
              preview := "", updated_at := 5 } : ManifestRow) with
            status := "failed",
            error := "ValueError" ++ ": " ++ "boom",
            updated_at := 77 } ::
          [].map (rowAfter [("a.txt", "hello")]
            (fun _ => Except.error { name := "ValueError", msg := "boom" })
            ["pending", "failed"] 120 77)) :=
  claim_C2_exception_swallowed [("a.txt", "hello")]
    (fun _ => Except.error { name := "ValueError", msg := "boom" })
    ["pending", "failed"] 120 1 77 [] []
    { doc_id := 1, path := "a.txt", filename := "a.txt", ext := ".txt",
      status := "pending", error := "", n_chars := none, n_tokens := none,
      preview := "", updated_at := 5 }
    "hello" { name := "ValueError", msg := "boom" }
    (by decide) (by decide) rfl

/-- Claim C3: `build_file_manifest` is a deterministic function of the
directory contents — whatever order the filesystem reports the files in, and
whatever the clock says, two runs assign exactly the same `doc_id → path`
mapping; the doc_ids are the consecutive integers from 1 and the paths come
out sorted. -/
theorem claim_C3_manifest_deterministic (snap1 snap2 : List String) (ext : String)
    (n1 n2 : Nat) (hperm : snap1.Perm snap2) :
    (build_file_manifest snap1 ext n1).map (fun r => (r.doc_id, r.path)) =
      (build_file_manifest snap2 ext n2).map (fun r => (r.doc_id, r.path))
    ∧ (build_file_manifest snap1 ext n1).map (fun r => r.doc_id) =
        List.range' 1 ((build_file_manifest snap1 ext n1).length)
    ∧ List.Sorted strLeRel ((build_file_manifest snap1 ext n1).map (fun r => r.path)) := by
  refine ⟨?_, ?_, ?_⟩
  · simp only [build_file_manifest]
    rw [manifestRecords_pairs, manifestRecords_pairs,
      build_files_eq snap1 snap2 ext hperm]
  · simp only [build_file_manifest]
    rw [manifestRecords_doc_ids, manifestRecords_length]
  · simp only [build_file_manifest]
    rw [manifestRecords_paths]
    exact List.sorted_insertionSort strLeRel _

/-- Concrete instance of claim C3: the same four files reported in two
different filesystem orders, manifests built at two different times. -/
theorem claim_C3_witness :
    (build_file_manifest ["b.txt", "a.txt", "sub/c.txt", "d.md"] ".txt" 11).map
        (fun r => (r.doc_id, r.path)) =
      (build_file_manifest ["sub/c.txt", "d.md", "b.txt", "a.txt"] ".txt" 22).map
        (fun r => (r.doc_id, r.path))
    ∧ (build_file_manifest ["b.txt", "a.txt", "sub/c.txt", "d.md"] ".txt" 11).map
        (fun r => r.doc_id) =
      List.range' 1
        ((build_file_manifest ["b.txt", "a.txt", "sub/c.txt", "d.md"] ".txt" 11).length)
    ∧ List.Sorted strLeRel
        ((build_file_manifest ["b.txt", "a.txt", "sub/c.txt", "d.md"] ".txt" 11).map
          (fun r => r.path)) :=
  claim_C3_manifest_deterministic ["b.txt", "a.txt", "sub/c.txt", "d.md"]
    ["sub/c.txt", "d.md", "b.txt", "a.txt"] ".txt" 11 22 (by decide)

/-- Claim C4: the manifest is persisted every `save_every` processed rows —
successes and failures both advance the counter — giving `⌊K / save_every⌋`
periodic saves for `K` processed rows, and is persisted once more
unconditionally at the end, so the last persisted snapshot is the returned
manifest. -/
theorem claim_C4_save_cadence (fs : List (String × String))
    (tok : String → Except PyExc (List String)) (statuses : List String)
    (preview_chars save_every now : Nat) (df0 : List ManifestRow)
    (hse : 0 < save_every) :
    (process_manifest_to_jsonl fs tok statuses preview_chars save_every now
        df0).saves.length =
      df0.countP (fun r => decide (r.status ∈ statuses)) / save_every + 1
    ∧ (process_manifest_to_jsonl fs tok statuses preview_chars save_every now
        df0).saves.getLast? =
      some ((process_manifest_to_jsonl fs tok statuses preview_chars save_every now
        df0).df)
    ∧ (process_manifest_to_jsonl fs tok statuses preview_chars save_every now
        df0).processed =
      df0.countP (fun r => decide (r.status ∈ statuses)) := by
  refine ⟨?_, ?_, process_processed fs tok statuses preview_chars save_every now df0⟩
  · have hrun := runRows_saves_length fs tok statuses preview_chars save_every now df0
      { pre := [], out := [], saves := [], processed := 0 }
    simp only [Nat.zero_div, Nat.add_zero, Nat.zero_add, List.length_nil] at hrun
    simp only [process_manifest_to_jsonl, List.length_append, List.length_cons,
      List.length_nil]
    omega
  · simp only [process_manifest_to_jsonl]
    rw [List.getLast?_concat]

/-- Concrete instance of claim C4: three selected rows with
`save_every = 2` give one periodic save plus the final save. -/
theorem claim_C4_witness :
    (process_manifest_to_jsonl [("a.txt", "x"), ("b.txt", "y")]
        (fun t => Except.ok [t]) ["pending", "failed"] 120 2 9
        [{ doc_id := 1, path := "a.txt", filename := "a.txt", ext := ".txt",
           status := "pending", error := "", n_chars := none, n_tokens := none,
           preview := "", updated_at := 5 },
         { doc_id := 2, path := "b.txt", filename := "b.txt", ext := ".txt",
           status := "failed", error := "old", n_chars := none, n_tokens := none,
           preview := "", updated_at := 5 },
         { doc_id := 3, path := "c.txt", filename := "c.txt", ext := ".txt",
           status := "pending", error := "", n_chars := none, n_tokens := none,
           preview := "", updated_at := 5 }]).saves.length =
      List.countP (fun r => decide (r.status ∈ (["pending", "failed"] : List String)))
          [({ doc_id := 1, path := "a.txt", filename := "a.txt", ext := ".txt",
              status := "pending", error := "", n_chars := none, n_tokens := none,
              preview := "", updated_at := 5 } : ManifestRow),
           { doc_id := 2, path := "b.txt", filename := "b.txt", ext := ".txt",
             status := "failed", error := "old", n_chars := none, n_tokens := none,
             preview := "", updated_at := 5 },
           { doc_id := 3, path := "c.txt", filename := "c.txt", ext := ".txt",
             status := "pending", error := "", n_chars := none, n_tokens := none,
             preview := "", updated_at := 5 }] / 2 + 1
    ∧ (process_manifest_to_jsonl [("a.txt", "x"), ("b.txt", "y")]
        (fun t => Except.ok [t]) ["pending", "failed"] 120 2 9
        [{ doc_id := 1, path := "a.txt", filename := "a.txt", ext := ".txt",
           status := "pending", error := "", n_chars := none, n_tokens := none,
           preview := "", updated_at := 5 },
         { doc_id := 2, path := "b.txt", filename := "b.txt", ext := ".txt",
           status := "failed", error := "old", n_chars := none, n_tokens := none,
           preview := "", updated_at := 5 },
         { doc_id := 3, path := "c.txt", filename := "c.txt", ext := ".txt",
           status := "pending", error := "", n_chars := none, n_tokens := none,
           preview := "", updated_at := 5 }]).saves.getLast? =
      some ((process_manifest_to_jsonl [("a.txt", "x"), ("b.txt", "y")]
        (fun t => Except.ok [t]) ["pending", "failed"] 120 2 9
        [{ doc_id := 1, path := "a.txt", filename := "a.txt", ext := ".txt",
           status := "pending", error := "", n_chars := none, n_tokens := none,
           preview := "", updated_at := 5 },
         { doc_id := 2, path := "b.txt", filename := "b.txt", ext := ".txt",
           status := "failed", error := "old", n_chars := none, n_tokens := none,
           preview := "", updated_at := 5 },
         { doc_id := 3, path := "c.txt", filename := "c.txt", ext := ".txt",
           status := "pending", error := "", n_chars := none, n_tokens := none,
           preview := "", updated_at := 5 }]).df)
    ∧ (process_manifest_to_jsonl [("a.txt", "x"), ("b.txt", "y")]
        (fun t => Except.ok [t]) ["pending", "failed"] 120 2 9
        [{ doc_id := 1, path := "a.txt", filename := "a.txt", ext := ".txt",
           status := "pending", error := "", n_chars := none, n_tokens := none,
           preview := "", updated_at := 5 },
         { doc_id := 2, path := "b.txt", filename := "b.txt", ext := ".txt",
           status := "failed", error := "old", n_chars := none, n_tokens := none,
           preview := "", updated_at := 5 },
         { doc_id := 3, path := "c.txt", filename := "c.txt", ext := ".txt",
           status := "pending", error := "", n_chars := none, n_tokens := none,
           preview := "", updated_at := 5 }]).processed =
      List.countP (fun r => decide (r.status ∈ (["pending", "failed"] : List String)))
          [({ doc_id := 1, path := "a.txt", filename := "a.txt", ext := ".txt",
              status := "pending", error := "", n_chars := none, n_tokens := none,
              preview := "", updated_at := 5 } : ManifestRow),
           { doc_id := 2, path := "b.txt", filename := "b.txt", ext := ".txt",
             status := "failed", error := "old", n_chars := none, n_tokens := none,
             preview := "", updated_at := 5 },
           { doc_id := 3, path := "c.txt", filename := "c.txt", ext := ".txt",
             status := "pending", error := "", n_chars := none, n_tokens := none,
             preview := "", updated_at := 5 }] :=
  claim_C4_save_cadence [("a.txt", "x"), ("b.txt", "y")]
    (fun t => Except.ok [t]) ["pending", "failed"] 120 2 9
    [{ doc_id := 1, path := "a.txt", filename := "a.txt", ext := ".txt",
       status := "pending", error := "", n_chars := none, n_tokens := none,
       preview := "", updated_at := 5 },
     { doc_id := 2, path := "b.txt", filename := "b.txt", ext := ".txt",
       status := "failed", error := "old", n_chars := none, n_tokens := none,
       preview := "", updated_at := 5 },
     { doc_id := 3, path := "c.txt", filename := "c.txt", ext := ".txt",
       status := "pending", error := "", n_chars := none, n_tokens := none,
       preview := "", updated_at := 5 }]
    (by decide)

/-- Claim C5: when a selected row fails, only `status`, `error` and
`updated_at` change — `n_chars`, `n_tokens`, `preview` and the identity
fields keep their previous values — and every other row of the manifest is
mapped through its own `rowAfter`, unaffected by this row's failure. -/
theorem claim_C5_failure_frame (fs : List (String × String))
    (tok : String → Except PyExc (List String)) (statuses : List String)
    (preview_chars save_every now : Nat) (pre post : List ManifestRow)
    (row : ManifestRow)
    (h1 : row.status ∈ statuses)
    (h2 : (processRowResult fs tok preview_chars now row).1.status = "failed") :
    ((processRowResult fs tok preview_chars now row).1.n_chars = row.n_chars
    ∧ (processRowResult fs tok preview_chars now row).1.n_tokens = row.n_tokens
    ∧ (processRowResult fs tok preview_chars now row).1.preview = row.preview
    ∧ (processRowResult fs tok preview_chars now row).1.doc_id = row.doc_id
    ∧ (processRowResult fs tok preview_chars now row).1.path = row.path
    ∧ (processRowResult fs tok preview_chars now row).1.filename = row.filename
    ∧ (processRowResult fs tok preview_chars now row).1.ext = row.ext
    ∧ (processRowResult fs tok preview_chars now row).1.updated_at = now)
    ∧ (process_manifest_to_jsonl fs tok statuses preview_chars save_every now
        (pre ++ row :: post)).df =
      pre.map (rowAfter fs tok statuses preview_chars now) ++
        ((processRowResult fs tok preview_chars now row).1 ::
          post.map (rowAfter fs tok statuses preview_chars now)) := by
  constructor
  · cases hfs : fs.lookup row.path with
    | none => simp [processRowResult, hfs]
    | some text =>
      cases htok : tok text with
      | error e => simp [processRowResult, hfs, htok]
      | ok tokens =>
        exfalso
        simp only [processRowResult, hfs, htok] at h2
        exact absurd h2 (by decide)
  · rw [process_df, List.map_append, List.map_cons]
    have hrow : rowAfter fs tok statuses preview_chars now row =
        (processRowResult fs tok preview_chars now row).1 := by
      simp [rowAfter, h1]
    rw [hrow]

/-- Concrete instance of claim C5: a previously-done-then-failed row keeps
its recorded `n_chars`, `n_tokens` and `preview` through the failure. -/
theorem claim_C5_witness :
    ((processRowResult [("a.txt", "hello")]
        (fun _ => Except.error { name := "ValueError", msg := "boom" }) 120 77
        { doc_id := 1, path := "a.txt", filename := "a.txt", ext := ".txt",
          status := "failed", error := "", n_chars := some 5, n_tokens := some 1,
          preview := "hello", updated_at := 5 }).1.n_chars = some 5
    ∧ (processRowResult [("a.txt", "hello")]
        (fun _ => Except.error { name := "ValueError", msg := "boom" }) 120 77
        { doc_id := 1, path := "a.txt", filename := "a.txt", ext := ".txt",
          status := "failed", error := "", n_chars := some 5, n_tokens := some 1,
          preview := "hello", updated_at := 5 }).1.n_tokens = some 1
    ∧ (processRowResult [("a.txt", "hello")]
        (fun _ => Except.error { name := "ValueError", msg := "boom" }) 120 77
        { doc_id := 1, path := "a.txt", filename := "a.txt", ext := ".txt",
          status := "failed", error := "", n_chars := some 5, n_tokens := some 1,
          preview := "hello", updated_at := 5 }).1.preview = "hello"
    ∧ (processRowResult [("a.txt", "hello")]
        (fun _ => Except.error { name := "ValueError", msg := "boom" }) 120 77
        { doc_id := 1, path := "a.txt", filename := "a.txt", ext := ".txt",
          status := "failed", error := "", n_chars := some 5, n_tokens := some 1,
          preview := "hello", updated_at := 5 }).1.doc_id = 1
    ∧ (processRowResult [("a.txt", "hello")]
        (fun _ => Except.error { name := "ValueError", msg := "boom" }) 120 77
        { doc_id := 1, path := "a.txt", filename := "a.txt", ext := ".txt",
          status := "failed", error := "", n_chars := some 5, n_tokens := some 1,
          preview := "hello", updated_at := 5 }).1.path = "a.txt"
    ∧ (processRowResult [("a.txt", "hello")]
        (fun _ => Except.error { name := "ValueError", msg := "boom" }) 120 77
        { doc_id := 1, path := "a.txt", filename := "a.txt", ext := ".txt",
          status := "failed", error := "", n_chars := some 5, n_tokens := some 1,
          preview := "hello", updated_at := 5 }).1.filename = "a.txt"
    ∧ (processRowResult [("a.txt", "hello")]
        (fun _ => Except.error { name := "ValueError", msg := "boom" }) 120 77
        { doc_id := 1, path := "a.txt", filename := "a.txt", ext := ".txt",
          status := "failed", error := "", n_chars := some 5, n_tokens := some 1,
          preview := "hello", updated_at := 5 }).1.ext = ".txt"
    ∧ (processRowResult [("a.txt", "hello")]
        (fun _ => Except.error { name := "ValueError", msg := "boom" }) 120 77
        { doc_id := 1, path := "a.txt", filename := "a.txt", ext := ".txt",
          status := "failed", error := "", n_chars := some 5, n_tokens := some 1,
          preview := "hello", updated_at := 5 }).1.updated_at = 77)
    ∧ (process_manifest_to_jsonl [("a.txt", "hello")]
        (fun _ => Except.error { name := "ValueError", msg := "boom" })
        ["pending", "failed"] 120 1 77
        ([] ++ ({ doc_id := 1, path := "a.txt", filename := "a.txt", ext := ".txt",
                  status := "failed", error := "", n_chars := some 5,
                  n_tokens := some 1, preview := "hello",
                  updated_at := 5 } : ManifestRow) :: [])).df =
      [].map (rowAfter [("a.txt", "hello")]
        (fun _ => Except.error { name := "ValueError", msg := "boom" })
        ["pending", "failed"] 120 77) ++
        ((processRowResult [("a.txt", "hello")]
            (fun _ => Except.error { name := "ValueError", msg := "boom" }) 120 77
            { doc_id := 1, path := "a.txt", filename := "a.txt", ext := ".txt",
              status := "failed", error := "", n_chars := some 5, n_tokens := some 1,
              preview := "hello", updated_at := 5 }).1 ::
          [].map (rowAfter [("a.txt", "hello")]
            (fun _ => Except.error { name := "ValueError", msg := "boom" })
            ["pending", "failed"] 120 77)) :=
  claim_C5_failure_frame [("a.txt", "hello")]
    (fun _ => Except.error { name := "ValueError", msg := "boom" })
    ["pending", "failed"] 120 1 77 [] []
    { doc_id := 1, path := "a.txt", filename := "a.txt", ext := ".txt",
      status := "failed", error := "", n_chars := some 5, n_tokens := some 1,
      preview := "hello", updated_at := 5 }
    (by decide) (by decide)

/-- Claim C6: a selected row whose file is missing is marked `failed` with
the non-empty error `"file not found: <path>"`, contributes no jsonl line,
is counted toward the save cadence (one more processed row than the same
manifest without it), and the rest of the batch still runs. -/
theorem claim_C6_file_not_found (fs : List (String × String))
    (tok : String → Except PyExc (List String)) (statuses : List String)
    (preview_chars save_every now : Nat) (pre post : List ManifestRow)
    (row : ManifestRow)
    (h1 : row.status ∈ statuses)
    (h2 : fs.lookup row.path = none) :
    processRowResult fs tok preview_chars now row =
      ({ row with
          status := "failed",
          error := "file not found: " ++ row.path,
          updated_at := now }, none)
    ∧ ("file not found: " ++ row.path) ≠ ""
    ∧ rowOut fs tok statuses preview_chars now row = []
    ∧ (process_manifest_to_jsonl fs tok statuses preview_chars save_every now
        (pre ++ row :: post)).processed =
      (pre ++ post).countP (fun r => decide (r.status ∈ statuses)) + 1
    ∧ (process_manifest_to_jsonl fs tok statuses preview_chars save_every now
        (pre ++ row :: post)).df =
      pre.map (rowAfter fs tok statuses preview_chars now) ++
        ({ row with
            status := "failed",
            error := "file not found: " ++ row.path,
            updated_at := now } ::
          post.map (rowAfter fs tok statuses preview_chars now)) := by
  refine ⟨?_, ?_, ?_, ?_, ?_⟩
  · simp [processRowResult, h2]
  · simp [String.ext_iff]
  · simp [rowOut, h1, processRowResult, h2]
  · rw [process_processed, List.countP_append, List.countP_cons,
      List.countP_append]
    simp [h1]
    omega
  · rw [process_df, List.map_append, List.map_cons]
    have hrow : rowAfter fs tok statuses preview_chars now row =
        { row with
            status := "failed",
            error := "file not found: " ++ row.path,
            updated_at := now } := by
      simp [rowAfter, h1, processRowResult, h2]
    rw [hrow]

/-- Concrete instance of claim C6: one pending row whose file is absent from
the snapshot. -/
theorem claim_C6_witness :
    processRowResult [("b.txt", "y")]
        (fun t => Except.ok [t]) 120 77
        { doc_id := 1, path := "a.txt", filename := "a.txt", ext := ".txt",
          status := "pending", error := "", n_chars := none, n_tokens := none,
          preview := "", updated_at := 5 } =
      ({ ({ doc_id := 1, path := "a.txt", filename := "a.txt", ext := ".txt",
            status := "pending", error := "", n_chars := none, n_tokens := none,
            preview := "", updated_at := 5 } : ManifestRow) with
          status := "failed",
          error := "file not found: " ++ "a.txt",
          updated_at := 77 }, none)
    ∧ ("file not found: " ++ "a.txt") ≠ ""
    ∧ rowOut [("b.txt", "y")] (fun t => Except.ok [t]) ["pending", "failed"] 120 77
        { doc_id := 1, path := "a.txt", filename := "a.txt", ext := ".txt",
          status := "pending", error := "", n_chars := none, n_tokens := none,
          preview := "", updated_at := 5 } = []
    ∧ (process_manifest_to_jsonl [("b.txt", "y")] (fun t => Except.ok [t])
        ["pending", "failed"] 120 1 77
        ([] ++ ({ doc_id := 1, path := "a.txt", filename := "a.txt", ext := ".txt",
                  status := "pending", error := "", n_chars := none, n_tokens := none,
                  preview := "", updated_at := 5 } : ManifestRow) ::
          [{ doc_id := 2, path := "b.txt", filename := "b.txt", ext := ".txt",
             status := "pending", error := "", n_chars := none, n_tokens := none,
             preview := "", updated_at := 5 }])).processed =
      List.countP (fun r => decide (r.status ∈ (["pending", "failed"] : List String)))
          ([] ++ [({ doc_id := 2, path := "b.txt", filename := "b.txt", ext := ".txt",
                     status := "pending", error := "", n_chars := none,
                     n_tokens := none, preview := "",
                     updated_at := 5 } : ManifestRow)]) + 1
    ∧ (process_manifest_to_jsonl [("b.txt", "y")] (fun t => Except.ok [t])
        ["pending", "failed"] 120 1 77
        ([] ++ ({ doc_id := 1, path := "a.txt", filename := "a.txt", ext := ".txt",
                  status := "pending", error := "", n_chars := none, n_tokens := none,
                  preview := "", updated_at := 5 } : ManifestRow) ::
          [{ doc_id := 2, path := "b.txt", filename := "b.txt", ext := ".txt",
             status := "pending", error := "", n_chars := none, n_tokens := none,
             preview := "", updated_at := 5 }])).df =
      [].map (rowAfter [("b.txt", "y")] (fun t => Except.ok [t])
        ["pending", "failed"] 120 77) ++
        ({ ({ doc_id := 1, path := "a.txt", filename := "a.txt", ext := ".txt",
              status := "pending", error := "", n_chars := none, n_tokens := none,
              preview := "", updated_at := 5 } : ManifestRow) with
            status := "failed",
            error := "file not found: " ++ "a.txt",
            updated_at := 77 } ::
          [{ doc_id := 2, path := "b.txt", filename := "b.txt", ext := ".txt",
             status := "pending", error := "", n_chars := none, n_tokens := none,
             preview := "", updated_at := 5 }].map
            (rowAfter [("b.txt", "y")] (fun t => Except.ok [t])
              ["pending", "failed"] 120 77)) :=
  claim_C6_file_not_found [("b.txt", "y")] (fun t => Except.ok [t])
    ["pending", "failed"] 120 1 77 []
    [{ doc_id := 2, path := "b.txt", filename := "b.txt", ext := ".txt",
       status := "pending", error := "", n_chars := none, n_tokens := none,
       preview := "", updated_at := 5 }]
    { doc_id := 1, path := "a.txt", filename := "a.txt", ext := ".txt",
      status := "pending", error := "", n_chars := none, n_tokens := none,
      preview := "", updated_at := 5 }
    (by decide) (by decide)

/-- Claim C7: giving both a non-empty POS keep-list and a non-empty
exclude-list that are disjoint raises the configuration `ValueError` under
`strict=True`, for every input frame (so before any filtering happens);
when they intersect, or `strict` is off, no error is raised and the
keep-filter is applied before the exclude-filter. -/
theorem claim_C7_disjoint_pos_filters (df : List TokenRow) (ks es : List String)
    (strict : Bool) (hks : ks ≠ []) (hes : es ≠ []) :
    ((∀ x ∈ ks, x ∉ es) →
      filter_tokens_df df (some ks) (some es) none true =
        .error "pos_keep と pos_exclude が同時指定されていますが、両者に交差がありません。指定ミスの可能性があります。")
    ∧ ((∃ x ∈ ks, x ∈ es) ∨ strict = false →
      filter_tokens_df df (some ks) (some es) none strict =
        .ok ((df.filter (fun r => ks.contains r.pos)).filter
          (fun r => !(es.contains r.pos)))) := by
  obtain ⟨k0, ktl, rfl⟩ := List.exists_cons_of_ne_nil hks
  obtain ⟨e0, etl, rfl⟩ := List.exists_cons_of_ne_nil hes
  constructor
  · intro hdisj
    have hc : ((¬k0 = e0 ∧ k0 ∉ etl) ∧ ∀ x ∈ ktl, ¬x = e0 ∧ x ∉ etl) := by
      constructor
      · have h0 := hdisj k0 (List.mem_cons_self k0 ktl)
        simpa [not_or] using h0
      · intro x hx
        have h1 := hdisj x (List.mem_cons_of_mem k0 hx)
        simpa [not_or] using h1
    simp [filter_tokens_df, _compile_pos_filter, hc]
    rw [if_pos hc.2]
  · intro hok
    rcases hok with ⟨x, hxk, hxe⟩ | hstrict
    · have hc : ¬((¬k0 = e0 ∧ k0 ∉ etl) ∧ ∀ x ∈ ktl, ¬x = e0 ∧ x ∉ etl) := by
        rintro ⟨⟨h1, h2⟩, h3⟩
        rcases List.mem_cons.mp hxk with rfl | hxk'
        · rcases List.mem_cons.mp hxe with h | h
          · exact h1 h
          · exact h2 h
        · rcases List.mem_cons.mp hxe with h | h
          · exact (h3 x hxk').1 h
          · exact (h3 x hxk').2 h
      simp [filter_tokens_df, _compile_pos_filter, hc]
    · subst hstrict
      simp [filter_tokens_df, _compile_pos_filter]

/-- Concrete instance of claim C7: keep 名詞, exclude 助詞 — disjoint, so
strict filtering errors out, while the non-strict call filters. -/
theorem claim_C7_witness :
    ((∀ x ∈ (["名詞"] : List String), x ∉ (["助詞"] : List String)) →
      filter_tokens_df
          [({ article_id := 1, word := "猫", pos := "名詞" } : TokenRow),
           { article_id := 1, word := "が", pos := "助詞" }]
          (some ["名詞"]) (some ["助詞"]) none true =
        .error "pos_keep と pos_exclude が同時指定されていますが、両者に交差がありません。指定ミスの可能性があります。")
    ∧ ((∃ x ∈ (["名詞"] : List String), x ∈ (["助詞"] : List String)) ∨ false = false →
      filter_tokens_df
          [({ article_id := 1, word := "猫", pos := "名詞" } : TokenRow),
           { article_id := 1, word := "が", pos := "助詞" }]
          (some ["名詞"]) (some ["助詞"]) none false =
        .ok (([({ article_id := 1, word := "猫", pos := "名詞" } : TokenRow),
               { article_id := 1, word := "が", pos := "助詞" }].filter
                (fun r => (["名詞"] : List String).contains r.pos)).filter
              (fun r => !((["助詞"] : List String).contains r.pos)))) :=
  claim_C7_disjoint_pos_filters
    [{ article_id := 1, word := "猫", pos := "名詞" },
     { article_id := 1, word := "が", pos := "助詞" }]
    ["名詞"] ["助詞"] false (by decide) (by decide)

/-- Claim C8: `None`, empty or whitespace-only text makes both tokenizer
adapters return the empty record list without error, whatever analyzer
function is plugged in — the result does not depend on it, so the analyzer
is never consulted. -/
theorem claim_C8_blank_input (t : Option String) (tokJ : String → List JanomeToken)
    (tokS : String → SplitMode → List SudachiMorpheme) (ubf : Bool)
    (ecJ ecS : Option String) (sm : String) (wf : Option String)
    (h : t = none ∨ pyStrip (t.getD "") = "") :
    tokenize_text_janome t tokJ ubf ecJ = []
    ∧ tokenize_text_sudachi t tokS sm wf ubf ecS = .ok [] := by
  rcases h with rfl | hblank
  · exact ⟨rfl, rfl⟩
  · cases t with
    | none => exact ⟨rfl, rfl⟩
    | some s =>
      simp only [Option.getD_some] at hblank
      constructor
      · simp [tokenize_text_janome, hblank]
      · simp [tokenize_text_sudachi, hblank]

/-- Concrete instance of claim C8: whitespace-only input, with analyzers
that would return a token if they were consulted. -/
theorem claim_C8_witness :
    tokenize_text_janome (some "  \n\t ")
        (fun s => [{ surface := s, base_form := s, reading := s,
                     part_of_speech := "名詞,一般" }]) true (some "token_info") = []
    ∧ tokenize_text_sudachi (some "  \n\t ")
        (fun s _ => [{ surface := s, dictionary_form := s, normalized_form := s,
                       part_of_speech := ["名詞"] }]) "C" none true
        (some "token_info") = .ok [] :=
  claim_C8_blank_input (some "  \n\t ")
    (fun s => [{ surface := s, base_form := s, reading := s,
                 part_of_speech := "名詞,一般" }])
    (fun s _ => [{ surface := s, dictionary_form := s, normalized_form := s,
                   part_of_speech := ["名詞"] }])
    true (some "token_info") (some "token_info") "C" none
    (Or.inr (by decide))

lemma sudachiRecords_info_none (word_form : Option String) (ubf : Bool)
    (ms : List SudachiMorpheme) : ∀ rs,
    sudachiRecords word_form ubf none ms = .ok rs →
      rs.all (fun r => r.2.2.isNone) = true := by
  induction ms with
  | nil =>
    intro rs h
    cases h
    rfl
  | cons m ms ih =>
    intro rs h
    simp only [sudachiRecords, sudachiRecord] at h
    cases hw : sudachiWordForm word_form ubf m with
    | error e => rw [hw] at h; cases h
    | ok word =>
      rw [hw] at h
      cases hr : sudachiRecords word_form ubf none ms with
      | error e => rw [hr] at h; cases h
      | ok rs' =>
        rw [hr] at h
        cases h
        simpa using ih rs' hr

lemma sudachiRecords_info_some (word_form : Option String) (ubf : Bool) (c : String)
    (ms : List SudachiMorpheme) : ∀ rs,
    sudachiRecords word_form ubf (some c) ms = .ok rs →
      rs.all (fun r => r.2.2.isSome) = true := by
  induction ms with
  | nil =>
    intro rs h
    cases h
    rfl
  | cons m ms ih =>
    intro rs h
    simp only [sudachiRecords, sudachiRecord] at h
    cases hw : sudachiWordForm word_form ubf m with
    | error e => rw [hw] at h; cases h
    | ok word =>
      rw [hw] at h
      cases hr : sudachiRecords word_form ubf (some c) ms with
      | error e => rw [hr] at h; cases h
      | ok rs' =>
        rw [hr] at h
        cases h
        simpa using ih rs' hr

/-- Claim C9: the per-token `token_info` map is present in every output
record exactly when a non-`None` `extra_col` asks for it: with
`extra_col=None` every record's third component is `None`, with a column
name it is populated — in both adapters, for every input and analyzer. -/
theorem claim_C9_token_info_opt_in (t : Option String)
    (tokJ : String → List JanomeToken)
    (tokS : String → SplitMode → List SudachiMorpheme)
    (ubf : Bool) (sm : String) (wf : Option String) (c : String) :
    (tokenize_text_janome t tokJ ubf none).all (fun r => r.2.2.isNone) = true
    ∧ (tokenize_text_janome t tokJ ubf (some c)).all (fun r => r.2.2.isSome) = true
    ∧ (match tokenize_text_sudachi t tokS sm wf ubf none with
       | .ok rs => rs.all (fun r => r.2.2.isNone)
       | .error _ => true) = true
    ∧ (match tokenize_text_sudachi t tokS sm wf ubf (some c) with
       | .ok rs => rs.all (fun r => r.2.2.isSome)
       | .error _ => true) = true := by
  refine ⟨?_, ?_, ?_, ?_⟩
  · cases t with
    | none => rfl
    | some s =>
      by_cases hs : pyStrip s = "" <;>
        simp [tokenize_text_janome, hs, List.all_map, Function.comp]
  · cases t with
    | none => rfl
    | some s =>
      by_cases hs : pyStrip s = "" <;>
        simp [tokenize_text_janome, hs, List.all_map, Function.comp]
  · cases hres : tokenize_text_sudachi t tokS sm wf ubf none with
    | error e => rfl
    | ok rs =>
      simp only []
      cases t with
      | none =>
        simp only [tokenize_text_sudachi] at hres
        cases hres
        rfl
      | some s =>
        simp only [tokenize_text_sudachi] at hres
        by_cases hs : pyStrip s = ""
        · rw [if_pos hs] at hres
          cases hres
          rfl
        · rw [if_neg hs] at hres
          exact sudachiRecords_info_none wf ubf _ rs hres
  · cases hres : tokenize_text_sudachi t tokS sm wf ubf (some c) with
    | error e => rfl
    | ok rs =>
      simp only []
      cases t with
      | none =>
        simp only [tokenize_text_sudachi] at hres
        cases hres
        rfl
      | some s =>
        simp only [tokenize_text_sudachi] at hres
        by_cases hs : pyStrip s = ""
        · rw [if_pos hs] at hres
          cases hres
          rfl
        · rw [if_neg hs] at hres
          exact sudachiRecords_info_some wf ubf c _ rs hres

lemma mem_normalizeStopwordsList (w : String) (items : List Stopwords) :
    w ∈ normalizeStopwordsList items ↔
      ∃ it ∈ items, w ∈ _normalize_stopwords it := by
  induction items with
  | nil => simp [normalizeStopwordsList]
  | cons x xs ih => simp [normalizeStopwordsList, List.mem_append, ih]

/-- Claim C10: a `str` stopword argument is one excluded word — the filter
removes exactly the rows whose `word` equals it, never its individual
characters — and nested iterables are flattened recursively into one
exclusion set. -/
theorem claim_C10_stopwords_str_and_nesting (s : String) (df : List TokenRow)
    (strict : Bool) (items : List Stopwords) (w : String) :
    _normalize_stopwords (.strVal s) = [s]
    ∧ filter_tokens_df df none none (some (.strVal s)) strict =
        .ok (df.filter (fun r => !(r.word == s)))
    ∧ (w ∈ _normalize_stopwords (.iter items) ↔
        ∃ it ∈ items, w ∈ _normalize_stopwords it) := by
  refine ⟨rfl, ?_, ?_⟩
  · cases df with
    | nil => simp [filter_tokens_df, _compile_pos_filter]
    | cons r0 rest =>
      simp [filter_tokens_df, _compile_pos_filter, _normalize_stopwords,
        List.contains, List.elem_eq_mem]
      apply List.filter_congr
      intro r _
      by_cases hr : r.word = s <;> simp [hr]
  · simpa [_normalize_stopwords] using mem_normalizeStopwordsList w items

end ColabNLP
